import Mathlib

set_option maxHeartbeats 1000000

namespace MotorizedMicroscope

/-! Shallow embedding of the stepper-motor / burst-capture core of the
motorized-microscope server, in its three revisions main-v2.py, main-v3.py
and main-v4.py.  Concurrent writes to the shared emergency-stop flag are
modelled by an observation oracle `stop : Nat -> Bool`, giving the value of
the flag as the move loop observes it at each per-step check. -/

/-- Motor state enumeration, from `MotorState` in main-v2.py. -/
inductive MotorState where
  | idle
  | moving
  | emergencyStop
  | burst
  deriving DecidableEq

/-- Shared motor status record guarded by `motor_lock` in main-v2.py
(the `MotorStatus` dataclass, restricted to the fields the claims are
about). -/
structure MotorStatusV2 where
  position : Int
  targetPosition : Int
  state : MotorState
  deriving DecidableEq

/-- The step loop of `StepperMotor._move_steps` (main-v2.py lines 426-447).
`stop k` is the emergency-stop condition (`motor_status.state ==
MotorState.EMERGENCY_STOP`, or `self.is_moving` already cleared) observed at
the top of iteration `k`; the check happens before the pulse.  Arguments:
check index, remaining steps, current position.  Result: final
`current_position` and the number of step pulses emitted by this call. -/
def moveLoopV2 (dir : Int) (stop : Nat → Bool) : Nat → Nat → Int → Int × Nat
  | _, 0, pos => (pos, 0)
  | k, r + 1, pos =>
    if stop k then (pos, 0)
    else
      let res := moveLoopV2 dir stop (k + 1) r (pos + dir)
      (res.1, res.2 + 1)

/-- `StepperMotor._move_steps` from main-v2.py: direction from the sign of
`steps` (`GPIO.HIGH if steps > 0 else GPIO.LOW`), `abs(steps)` iterations,
per-iteration emergency check before the pulse, position updated by one per
pulse. -/
def moveStepsV2 (pos : Int) (steps : Int) (stop : Nat → Bool) : Int × Nat :=
  moveLoopV2 (if 0 < steps then 1 else -1) stop 0 steps.natAbs pos

/-- Guard of `StepperMotor.move_to` (main-v2.py lines 384-394): under the
lock, a request while in the emergency-stop state returns `False` without
touching the status; otherwise the state becomes moving and the target is
recorded.  The Bool is the guard outcome (`false` = rejected, so
`_move_steps` is never entered and no pulse is emitted). -/
def moveToGuardV2 (s : MotorStatusV2) (target : Int) : MotorStatusV2 × Bool :=
  if s.state = MotorState.emergencyStop then (s, false)
  else ({ s with state := MotorState.moving, targetPosition := target }, true)

/-- `StepperMotor.emergency_stop` from main-v2.py (lines 461-466). -/
def emergencyStopV2 (s : MotorStatusV2) : MotorStatusV2 :=
  { s with state := MotorState.emergencyStop }

/-- Shared state of `MotorController` in main-v3.py (the fields the claims
are about). -/
structure MotorControllerV3 where
  position : Int
  moving : Bool
  emergencyStopFlag : Bool
  deriving DecidableEq

/-- The step loop of `MotorController.move_steps` (main-v3.py lines
450-476): per-iteration flag check under the lock; on an observed flag the
flag is cleared and the loop breaks; otherwise one pulse is emitted and the
position moves by one.  Result: final position, pulses emitted, and whether
the loop was interrupted. -/
def moveLoopV3 (dir : Int) (stop : Nat → Bool) : Nat → Nat → Int → Int × Nat × Bool
  | _, 0, pos => (pos, 0, false)
  | k, r + 1, pos =>
    if stop k then (pos, 0, true)
    else
      let res := moveLoopV3 dir stop (k + 1) r (pos + dir)
      (res.1, res.2.1 + 1, res.2.2)

/-- `MotorController.move_steps` from main-v3.py (lines 432-480).  On entry
an already-set emergency-stop flag makes the call return at once - but it
also clears the flag (lines 435-437).  `stop k` is the flag value observed
at check `k`; `stop steps.natAbs` stands for the flag value at loop exit.
Result: final controller state and number of pulses emitted. -/
def moveStepsV3 (s : MotorControllerV3) (steps : Int) (stop : Nat → Bool) :
    MotorControllerV3 × Nat :=
  if s.emergencyStopFlag then ({ s with emergencyStopFlag := false }, 0)
  else
    let res := moveLoopV3 (if 0 < steps then 1 else -1) stop 0 steps.natAbs s.position
    (⟨res.1, false, if res.2.2 then false else stop steps.natAbs⟩, res.2.1)

/-- `MotorController.emergency_stop` from main-v3.py (lines 490-495). -/
def emergencyStopV3 (s : MotorControllerV3) : MotorControllerV3 :=
  { s with emergencyStopFlag := true, moving := false }

/-- State of `StepperMotor` in main-v4.py. -/
structure StepperMotorV4 where
  currentPosition : Int
  targetPosition : Int
  isMoving : Bool
  emergencyStop : Bool
  deriving DecidableEq

/-- `StepperMotor.move_to` from main-v4.py (lines 344-352): with an armed
emergency stop the call returns untouched; otherwise the target is recorded
and a move thread runs if none is running. -/
def moveToV4 (s : StepperMotorV4) (target : Int) : StepperMotorV4 :=
  if s.emergencyStop then s
  else { s with targetPosition := target, isMoving := true }

/-- `StepperMotor.move` from main-v4.py (lines 337-342): a relative move
computes its absolute target from `target_position`, not from
`current_position`. -/
def moveV4 (s : StepperMotorV4) (steps : Int) (positive : Bool) : StepperMotorV4 :=
  if positive then moveToV4 s (s.targetPosition + steps)
  else moveToV4 s (s.targetPosition - steps)

/-- The step loop of `StepperMotor._move_thread` (main-v4.py lines 369-394):
the loop body neither reads nor writes `current_position`; on an observed
emergency stop it returns with the position untouched, and only after a full
uninterrupted run is `current_position` set to `target_position` (lines
396-398).  Arguments: check index, remaining steps.  Result: final
`current_position` and pulses emitted by this call. -/
def moveThreadLoopV4 (target pos : Int) (stop : Nat → Bool) : Nat → Nat → Int × Nat
  | _, 0 => (target, 0)
  | k, r + 1 =>
    if stop k then (pos, 0)
    else
      let res := moveThreadLoopV4 target pos stop (k + 1) r
      (res.1, res.2 + 1)

/-- `StepperMotor._move_thread` from main-v4.py (lines 354-398). -/
def moveThreadV4 (pos target : Int) (stop : Nat → Bool) : Int × Nat :=
  moveThreadLoopV4 target pos stop 0 (target - pos).natAbs

/-- Acceleration phase length from `MotorController.move_steps` (main-v3.py
lines 446-448): `min(abs_steps // 2, int(speed_hz * speed_hz / (2 *
acceleration)))`, clamped to 0 when below 1. -/
def stepsToAccelV3 (absSteps speed accel : Nat) : Nat :=
  let s := min (absSteps / 2) (speed * speed / (2 * accel))
  if s < 1 then 0 else s

/-- Acceleration phase length from `StepperMotor._move_thread` (main-v4.py
line 367), which has no below-1 clamp. -/
def accelStepsV4 (stepsToMove speed accel : Nat) : Nat :=
  min (stepsToMove / 2) (speed * speed / (2 * accel))

/-- Raw per-step speed of the trapezoidal profile in
`MotorController.move_steps` (main-v3.py lines 456-462), before the
minimum-speed clamp. -/
def currentSpeedRawV3 (speed accel : ℚ) (absSteps sta i : Nat) : ℚ :=
  if i < sta then accel * i / speed
  else if (absSteps : Int) - sta < i then accel * ((absSteps : ℚ) - i) / speed
  else speed

/-- Clamped per-step speed (main-v3.py line 465): `max(1, current_speed)`. -/
def currentSpeedV3 (speed accel : ℚ) (absSteps sta i : Nat) : ℚ :=
  max 1 (currentSpeedRawV3 speed accel absSteps sta i)

/-- Per-step delay (main-v3.py line 473): `1.0 / current_speed`. -/
def stepDelayV3 (speed accel : ℚ) (absSteps sta i : Nat) : ℚ :=
  1 / currentSpeedV3 speed accel absSteps sta i

/-- Per-step speed multiplier of `StepperMotor._move_thread` (main-v4.py
lines 375-383): 1.0 on the plateau, `accel * step / speed` over the ramps. -/
def currentSpeedV4 (speed accel : ℚ) (stepsToMove accelSteps step : Nat) : ℚ :=
  if step < accelSteps then accel * step / speed
  else if (stepsToMove : Int) - accelSteps < step then
    accel * ((stepsToMove : ℚ) - step) / speed
  else 1

/-- Per-step delay of `StepperMotor._move_thread` (main-v4.py lines
390-394): `1 / (speed * current_speed)`, with the bare `except` handler
falling back to `1 / speed` when the divisor is zero. -/
def stepDelayV4 (speed accel : ℚ) (stepsToMove accelSteps step : Nat) : ℚ :=
  if speed * currentSpeedV4 speed accel stepsToMove accelSteps step = 0 then 1 / speed
  else 1 / (speed * currentSpeedV4 speed accel stepsToMove accelSteps step)

/-- Python banker rounding (builtin `round`): nearest integer, ties to
even. -/
def pyRound (q : ℚ) : Int :=
  if q - ⌊q⌋ < 1 / 2 then ⌊q⌋
  else if 1 / 2 < q - ⌊q⌋ then ⌊q⌋ + 1
  else if 2 ∣ ⌊q⌋ then ⌊q⌋ else ⌊q⌋ + 1

/-- Python `int()` truncation toward zero. -/
def pyTrunc (q : ℚ) : Int := if q < 0 then ⌈q⌉ else ⌊q⌋

/-- Burst position list of `burst_thread` in main-v3.py (lines 626-629):
`int(round(start_pos + (end_pos - start_pos) * i / (num_images - 1)))`,
with the float arithmetic embedded as exact rational arithmetic. -/
def positionsV3 (startPos endPos : Int) (numImages : Nat) : List Int :=
  (List.range numImages).map fun i : Nat =>
    pyRound ((startPos : ℚ) + ((endPos : ℚ) - startPos) * (i : ℚ) / ((numImages : ℚ) - 1))

/-- Burst target positions of `StreamingHandler.perform_burst` in main-v2.py
(lines 626-646): `int(start + (i * step_increment))` with
`step_increment = (end - start) / (count - 1)`. -/
def positionsV2 (startPos endPos : Int) (count : Nat) : List Int :=
  (List.range count).map fun i : Nat =>
    pyTrunc ((startPos : ℚ) + (i : ℚ) * (((endPos : ℚ) - startPos) / ((count : ℚ) - 1)))

/-- Rounding half away from zero, the policy the spec names. -/
def roundHalfAway (q : ℚ) : Int :=
  if q < 0 then -⌊-q + 1 / 2⌋ else ⌊q + 1 / 2⌋

/-- Modelled from the spec's words, for comparison with `positionsV3`:
an ordered sequence of `imageCount` integers linearly interpolated from
startPos to endPos inclusive, rounded half away from zero. -/
def positionsSpec (startPos endPos : Int) (numImages : Nat) : List Int :=
  (List.range numImages).map fun i : Nat =>
    roundHalfAway ((startPos : ℚ) + ((endPos : ℚ) - startPos) * (i : ℚ) / ((numImages : ℚ) - 1))

/-- Largest element of a list of directory indices. -/
def listMax (l : List Nat) : Nat := l.foldr max 0

/-- The directory-search loop shared by `burst_thread` (main-v3.py lines
614-620), `take_burst` (main-v4.py lines 531-537) and
`StreamingHandler.perform_burst` (main-v2.py lines 616-623): starting from a
candidate index, increment past every index whose `burst_NNN` directory
already exists.  `fuel` bounds the recursion; every use below supplies
enough fuel to reach an unused index, so the value matches the unbounded
Python loop. -/
def findBurstNum (existing : List Nat) : Nat → Nat → Nat
  | 0, n => n
  | fuel + 1, n => if n ∈ existing then findBurstNum existing fuel (n + 1) else n

/-- Directory index chosen by main-v3.py / main-v4.py: the search always
starts at index 1. -/
def burstNumV3 (existing : List Nat) : Nat :=
  findBurstNum existing (listMax existing + 1) 1

/-- Directory index chosen by main-v2.py: the search starts at the global
`burst_counter`, which persists across runs and is left at the chosen
index (the loop breaks without incrementing on success). -/
def burstNumV2 (existing : List Nat) (counter : Nat) : Nat :=
  findBurstNum existing (listMax existing + counter + 1) counter

/-- Burst-related shared state of main-v2.py: `output.burst_mode`,
`output.burst_dir`, `motor_status.state`, `motor_status.burst_progress`. -/
structure BurstStateV2 where
  burstMode : Bool
  burstDir : Option Nat
  state : MotorState
  burstProgress : ℚ
  deriving DecidableEq

/-- Finally block of `StreamingHandler.perform_burst` (main-v2.py lines
655-661), which runs on every exit of the try body - normal completion,
emergency-stop break, or an exception raised by a move or capture: burst
mode off, directory cleared, state back to idle unless emergency-stopped,
progress reset to 0. -/
def performBurstFinallyV2 (s : BurstStateV2) : BurstStateV2 :=
  { burstMode := false
    burstDir := none
    state := if s.state = MotorState.emergencyStop then s.state else MotorState.idle
    burstProgress := 0 }

/-- `StreamingOutput` burst fields in main-v2.py. -/
structure OutputStateV2 where
  burstCount : Nat
  burstTotal : Nat
  burstProgress : ℚ
  deriving DecidableEq

/-- `StreamingOutput.save_burst_image` from main-v2.py (lines 497-515): a
frame is written only while `burst_count < burst_total`; the counter then
increments and the progress becomes `burst_count / burst_total * 100`. -/
def saveBurstImageV2 (s : OutputStateV2) : OutputStateV2 :=
  if s.burstCount < s.burstTotal then
    { s with
      burstCount := s.burstCount + 1
      burstProgress := ((s.burstCount : ℚ) + 1) / (s.burstTotal : ℚ) * 100 }
  else s

/-- Burst-related shared state of main-v3.py: `motor.burst_progress` and the
emergency flag. -/
structure BurstStateV3 where
  burstProgress : Nat
  emergencyStopFlag : Bool
  deriving DecidableEq

/-- Image loop of `burst_thread` in main-v3.py (lines 632-647).  `stop i` is
the emergency flag observed before image `i`; `failAt i` tells whether the
move or capture of image `i` raises.  The Bool result marks an exception
escaping the thread (main-v3.py puts no try/finally around this loop).
Arguments: remaining images, current index, state. -/
def burstLoopV3 (n : Nat) (stop failAt : Nat → Bool) :
    Nat → Nat → BurstStateV3 → BurstStateV3 × Bool
  | 0, _, s => (s, false)
  | r + 1, i, s =>
    if stop i then ({ s with emergencyStopFlag := false }, false)
    else
      let s1 := { s with burstProgress := (i + 1) * 100 / n }
      if failAt i then (s1, true)
      else burstLoopV3 n stop failAt r (i + 1) s1

/-- `burst_thread` from main-v3.py (lines 613-650), restricted to the state
the claims are about: run the image loop, then reset the progress to 0 -
unless an exception escaped, in which case the reset is skipped because no
handler exists. -/
def burstThreadV3 (n : Nat) (stop failAt : Nat → Bool) (s : BurstStateV3) :
    BurstStateV3 × Bool :=
  let res := burstLoopV3 n stop failAt n 0 s
  if res.2 then res else ({ res.1 with burstProgress := 0 }, false)

/-- Stored progress value of `burst_thread` in main-v3.py (line 637):
`int((i + 1) / num_images * 100)` before capturing image `i`. -/
def burstProgressV3 (n i : Nat) : Nat := (i + 1) * 100 / n

/-! Lemmas about the three move loops. -/

theorem moveLoopV2_fst (dir : Int) (stop : Nat → Bool) :
    ∀ (r k : Nat) (pos : Int),
      (moveLoopV2 dir stop k r pos).1 = pos + dir * (moveLoopV2 dir stop k r pos).2 := by
  intro r
  induction r with
  | zero => intro k pos; simp [moveLoopV2]
  | succ r ih =>
    intro k pos
    by_cases h : stop k
    · simp [moveLoopV2, h]
    · simp only [moveLoopV2, h, Bool.false_eq_true, if_false]
      rw [ih (k + 1) (pos + dir)]
      push_cast
      ring

theorem moveLoopV2_complete (dir : Int) (stop : Nat → Bool) :
    ∀ (r k : Nat) (pos : Int),
      (∀ j, j < r → stop (k + j) = false) →
      moveLoopV2 dir stop k r pos = (pos + dir * r, r) := by
  intro r
  induction r with
  | zero => intro k pos _; simp [moveLoopV2]
  | succ r ih =>
    intro k pos h
    have h0 : stop k = false := by simpa using h 0 (Nat.succ_pos r)
    have hrec := ih (k + 1) (pos + dir) fun j hj => by
      have := h (j + 1) (by omega)
      simpa [Nat.add_assoc, Nat.add_comm 1 j] using this
    simp only [moveLoopV2, h0, Bool.false_eq_true, if_false, hrec, Prod.mk.injEq]
    refine ⟨by push_cast; ring, trivial⟩

theorem moveLoopV2_stop_le (dir : Int) (stop : Nat → Bool) :
    ∀ (r k j : Nat) (pos : Int),
      stop (k + j) = true → (moveLoopV2 dir stop k r pos).2 ≤ j := by
  intro r
  induction r with
  | zero => intro k j pos _; simp [moveLoopV2]
  | succ r ih =>
    intro k j pos hj
    by_cases h : stop k
    · simp [moveLoopV2, h]
    · have hj0 : j ≠ 0 := by
        intro h0
        rw [h0, Nat.add_zero] at hj
        exact absurd hj (by simp [h])
      obtain ⟨j, rfl⟩ : ∃ m, j = m + 1 := ⟨j - 1, by omega⟩
      have : stop (k + 1 + j) = true := by
        have : k + 1 + j = k + (j + 1) := by omega
        rw [this]; exact hj
      have := ih (k + 1) j (pos + dir) this
      simp only [moveLoopV2, h, Bool.false_eq_true, if_false]
      omega

theorem moveLoopV2_checked (dir : Int) (stop : Nat → Bool) :
    ∀ (r k : Nat) (pos : Int) (i : Nat),
      i < (moveLoopV2 dir stop k r pos).2 → stop (k + i) = false := by
  intro r
  induction r with
  | zero => intro k pos i hi; simp [moveLoopV2] at hi
  | succ r ih =>
    intro k pos i hi
    by_cases h : stop k
    · simp [moveLoopV2, h] at hi
    · simp only [moveLoopV2, h, Bool.false_eq_true, if_false] at hi
      match i with
      | 0 => simpa using h
      | i + 1 =>
        have := ih (k + 1) (pos + dir) i (by omega)
        have heq : k + (i + 1) = k + 1 + i := by omega
        rw [heq]; exact this

theorem moveLoopV3_stop_le (dir : Int) (stop : Nat → Bool) :
    ∀ (r k j : Nat) (pos : Int),
      stop (k + j) = true → (moveLoopV3 dir stop k r pos).2.1 ≤ j := by
  intro r
  induction r with
  | zero => intro k j pos _; simp [moveLoopV3]
  | succ r ih =>
    intro k j pos hj
    by_cases h : stop k
    · simp [moveLoopV3, h]
    · have hj0 : j ≠ 0 := by
        intro h0
        rw [h0, Nat.add_zero] at hj
        exact absurd hj (by simp [h])
      obtain ⟨j, rfl⟩ : ∃ m, j = m + 1 := ⟨j - 1, by omega⟩
      have : stop (k + 1 + j) = true := by
        have : k + 1 + j = k + (j + 1) := by omega
        rw [this]; exact hj
      have := ih (k + 1) j (pos + dir) this
      simp only [moveLoopV3, h, Bool.false_eq_true, if_false]
      omega

theorem moveLoopV3_checked (dir : Int) (stop : Nat → Bool) :
    ∀ (r k : Nat) (pos : Int) (i : Nat),
      i < (moveLoopV3 dir stop k r pos).2.1 → stop (k + i) = false := by
  intro r
  induction r with
  | zero => intro k pos i hi; simp [moveLoopV3] at hi
  | succ r ih =>
    intro k pos i hi
    by_cases h : stop k
    · simp [moveLoopV3, h] at hi
    · simp only [moveLoopV3, h, Bool.false_eq_true, if_false] at hi
      match i with
      | 0 => simpa using h
      | i + 1 =>
        have := ih (k + 1) (pos + dir) i (by omega)
        have heq : k + (i + 1) = k + 1 + i := by omega
        rw [heq]; exact this

theorem moveThreadLoopV4_complete (target pos : Int) (stop : Nat → Bool) :
    ∀ (r k : Nat),
      (∀ j, j < r → stop (k + j) = false) →
      moveThreadLoopV4 target pos stop k r = (target, r) := by
  intro r
  induction r with
  | zero => intro k _; simp [moveThreadLoopV4]
  | succ r ih =>
    intro k h
    have h0 : stop k = false := by simpa using h 0 (Nat.succ_pos r)
    have hrec := ih (k + 1) fun j hj => by
      have := h (j + 1) (by omega)
      simpa [Nat.add_assoc, Nat.add_comm 1 j] using this
    simp [moveThreadLoopV4, h0, hrec]

theorem moveThreadLoopV4_interrupted (target pos : Int) (stop : Nat → Bool) :
    ∀ (r k j : Nat), j < r → stop (k + j) = true →
      (moveThreadLoopV4 target pos stop k r).1 = pos := by
  intro r
  induction r with
  | zero => intro k j hj _; omega
  | succ r ih =>
    intro k j hj hstop
    by_cases h : stop k
    · simp [moveThreadLoopV4, h]
    · have hj0 : j ≠ 0 := by
        intro h0
        rw [h0, Nat.add_zero] at hstop
        exact absurd hstop (by simp [h])
      obtain ⟨j, rfl⟩ : ∃ m, j = m + 1 := ⟨j - 1, by omega⟩
      have hstop2 : stop (k + 1 + j) = true := by
        have : k + 1 + j = k + (j + 1) := by omega
        rw [this]; exact hstop
      have := ih (k + 1) j (by omega) hstop2
      simp [moveThreadLoopV4, h, this]

/-- C1 (amended): in the blocking-loop revision (main-v2.py) the invariant
holds as stated: an uninterrupted move ends exactly at the requested target
(`initial + steps`), and in every move - interrupted or not - the final
position equals the initial position plus the direction times exactly the
number of whole steps pulsed before the stop flag was observed.  In the
monitor-thread revision (main-v4.py) an uninterrupted move ends with
`current_position = target_position`, but an interrupted move leaves
`current_position` at its initial value no matter how many steps were
pulsed. -/
theorem c1_move_position_accounting :
    (∀ (pos steps : Int) (stop : Nat → Bool),
        (∀ j, j < steps.natAbs → stop j = false) →
        moveStepsV2 pos steps stop = (pos + steps, steps.natAbs)) ∧
    (∀ (pos steps : Int) (stop : Nat → Bool),
        (moveStepsV2 pos steps stop).1 =
          pos + (if 0 < steps then 1 else -1) * ((moveStepsV2 pos steps stop).2 : Int)) ∧
    (∀ (pos target : Int) (stop : Nat → Bool),
        (∀ j, j < (target - pos).natAbs → stop j = false) →
        moveThreadV4 pos target stop = (target, (target - pos).natAbs)) ∧
    (∀ (pos target : Int) (stop : Nat → Bool) (k : Nat),
        k < (target - pos).natAbs → stop k = true →
        (moveThreadV4 pos target stop).1 = pos) := by
  refine ⟨?_, ?_, ?_, ?_⟩
  · intro pos steps stop h
    unfold moveStepsV2
    rw [moveLoopV2_complete _ _ _ 0 pos (fun j hj => by simpa using h j hj)]
    have : (if 0 < steps then (1 : Int) else -1) * (steps.natAbs : Int) = steps := by
      split <;> omega
    rw [this]
  · intro pos steps stop
    exact moveLoopV2_fst _ _ _ 0 pos
  · intro pos target stop h
    unfold moveThreadV4
    exact moveThreadLoopV4_complete _ _ _ _ 0 (fun j hj => by simpa using h j hj)
  · intro pos target stop k hk hstop
    unfold moveThreadV4
    exact moveThreadLoopV4_interrupted _ _ _ _ 0 k hk (by simpa using hstop)

/-- C1 witness: a complete 3-step move in main-v2.py ends at the target, and
a 5-step move in main-v4.py interrupted after two pulses leaves the stored
position at its initial value 0. -/
theorem c1_move_position_accounting_witness :
    moveStepsV2 0 3 (fun _ => false) = (3, 3) ∧
    (moveThreadV4 0 5 (fun k => decide (2 ≤ k))).1 = 0 :=
  ⟨c1_move_position_accounting.1 0 3 (fun _ => false) (fun _ _ => rfl),
   c1_move_position_accounting.2.2.2 0 5 (fun k => decide (2 ≤ k)) 2 (by decide) (by decide)⟩

/-- C1 counterexample: in main-v4.py, the move from 0 toward 5 interrupted
after two emitted pulses ends with stored position 0, not
`initial + pulses = 2` as the claim demands. -/
theorem c1_counterexample :
    ¬ ((moveThreadV4 0 5 (fun k => decide (2 ≤ k))).1 =
        0 + ((moveThreadV4 0 5 (fun k => decide (2 ≤ k))).2 : Int)) := by
  decide

/-- C2: in both step loops (main-v2.py `_move_steps` and main-v3.py
`move_steps`) the emergency flag is checked once per step before pulsing: if
the flag reads true at check `k`, at most `k` pulses are ever emitted (so a
flag set between check `j` and check `j + 1` allows at most the single
pulse `j` after it), and every pulse that is emitted saw the flag false at
its own check. -/
theorem c2_stop_latency :
    (∀ (pos steps : Int) (stop : Nat → Bool) (k : Nat),
        stop k = true → (moveStepsV2 pos steps stop).2 ≤ k) ∧
    (∀ (pos steps : Int) (stop : Nat → Bool) (i : Nat),
        i < (moveStepsV2 pos steps stop).2 → stop i = false) ∧
    (∀ (s : MotorControllerV3) (steps : Int) (stop : Nat → Bool) (k : Nat),
        stop k = true → (moveStepsV3 s steps stop).2 ≤ k) ∧
    (∀ (s : MotorControllerV3) (steps : Int) (stop : Nat → Bool) (i : Nat),
        i < (moveStepsV3 s steps stop).2 → stop i = false) := by
  refine ⟨?_, ?_, ?_, ?_⟩
  · intro pos steps stop k hk
    unfold moveStepsV2
    exact moveLoopV2_stop_le _ _ _ 0 k pos (by simpa using hk)
  · intro pos steps stop i hi
    unfold moveStepsV2 at hi
    simpa using moveLoopV2_checked _ stop _ 0 pos i hi
  · intro s steps stop k hk
    unfold moveStepsV3
    by_cases h : s.emergencyStopFlag
    · simp [h]
    · simp only [h, Bool.false_eq_true, if_false]
      exact moveLoopV3_stop_le _ _ _ 0 k s.position (by simpa using hk)
  · intro s steps stop i hi
    unfold moveStepsV3 at hi
    by_cases h : s.emergencyStopFlag
    · simp [h] at hi
    · simp only [h, Bool.false_eq_true, if_false] at hi
      simpa using moveLoopV3_checked _ stop _ 0 s.position i hi

/-- C2 witness: with the flag first observed true at check 3, a 10-step move
emits at most 3 pulses in both revisions. -/
theorem c2_stop_latency_witness :
    (moveStepsV2 0 10 (fun k => decide (3 ≤ k))).2 ≤ 3 ∧
    (moveStepsV3 ⟨0, false, false⟩ 10 (fun k => decide (3 ≤ k))).2 ≤ 3 :=
  ⟨c2_stop_latency.1 0 10 (fun k => decide (3 ≤ k)) 3 (by decide),
   c2_stop_latency.2.2.1 ⟨0, false, false⟩ 10 (fun k => decide (3 ≤ k)) 3 (by decide)⟩

/-- C3 (amended): a move request issued while emergency-stopped is a silent
no-op for position and pulses in every revision.  In main-v2.py and
main-v4.py the EmergencyStopped state persists (neither revision has a reset
action), but in main-v3.py the rejected move itself clears the
emergency-stop flag, so the very next move proceeds. -/
theorem c3_emergency_noop :
    (∀ (s : MotorStatusV2) (target : Int),
        s.state = MotorState.emergencyStop → moveToGuardV2 s target = (s, false)) ∧
    (∀ (s : StepperMotorV4) (target : Int),
        s.emergencyStop = true → moveToV4 s target = s) ∧
    (∀ (s : MotorControllerV3) (steps : Int) (stop : Nat → Bool),
        s.emergencyStopFlag = true →
        moveStepsV3 s steps stop = ({ s with emergencyStopFlag := false }, 0)) := by
  refine ⟨?_, ?_, ?_⟩
  · intro s target h
    simp [moveToGuardV2, h]
  · intro s target h
    simp [moveToV4, h]
  · intro s steps stop h
    simp [moveStepsV3, h]

/-- C3 witness: concrete emergency-stopped states on which the three move
entries are evaluated. -/
theorem c3_emergency_noop_witness :
    moveToGuardV2 ⟨0, 0, MotorState.emergencyStop⟩ 5 =
      (⟨0, 0, MotorState.emergencyStop⟩, false) ∧
    moveToV4 ⟨0, 0, false, true⟩ 5 = ⟨0, 0, false, true⟩ ∧
    moveStepsV3 ⟨1, false, true⟩ 5 (fun _ => false) = (⟨1, false, false⟩, 0) :=
  ⟨c3_emergency_noop.1 ⟨0, 0, MotorState.emergencyStop⟩ 5 rfl,
   c3_emergency_noop.2.1 ⟨0, 0, false, true⟩ 5 rfl,
   c3_emergency_noop.2.2 ⟨1, false, true⟩ 5 (fun _ => false) rfl⟩

/-- C3 counterexample: in main-v3.py a move requested while the
emergency-stop flag is set does not leave the flag set - `move_steps` clears
it on rejection, contradicting "the state (including the emergency-stop
flag itself) remains EmergencyStopped until an explicit reset action clears
it". -/
theorem c3_counterexample :
    ¬ ((moveStepsV3 ⟨0, false, true⟩ 5 (fun _ => false)).1.emergencyStopFlag = true) := by
  decide

/-- Helper: the clamp in main-v3.py lines 447-448 is the identity on a
natural number, so both revisions compute the same minimum. -/
theorem stepsToAccelV3_eq_min (a s c : Nat) :
    stepsToAccelV3 a s c = min (a / 2) (s * s / (2 * c)) := by
  show (if min (a / 2) (s * s / (2 * c)) < 1 then 0 else min (a / 2) (s * s / (2 * c))) =
    min (a / 2) (s * s / (2 * c))
  rcases Nat.lt_or_ge (min (a / 2) (s * s / (2 * c))) 1 with h | h
  · rw [if_pos h, Nat.lt_one_iff.mp h]
  · rw [if_neg (by omega)]

/-- C5: the acceleration phase length of main-v3.py (and identically
main-v4.py) equals `min(stepCount / 2, speedHz^2 / (2*accel))` floored to an
integer step count; a computed length below 1 is exactly a length of 0 (pure
constant-speed move), and the constant-speed plateau never has negative
length (`2 * accelSteps <= stepCount`). -/
theorem c5_accel_phase :
    ∀ (absSteps speed accel : Nat),
      stepsToAccelV3 absSteps speed accel =
        ⌊min ((absSteps : ℚ) / 2) ((speed : ℚ) * speed / (2 * accel))⌋₊ ∧
      2 * stepsToAccelV3 absSteps speed accel ≤ absSteps ∧
      (min ((absSteps : ℚ) / 2) ((speed : ℚ) * speed / (2 * accel)) < 1 →
        stepsToAccelV3 absSteps speed accel = 0) ∧
      stepsToAccelV3 absSteps speed accel = accelStepsV4 absSteps speed accel := by
  intro a s c
  have h1 : ⌊(a : ℚ) / 2⌋₊ = a / 2 := by
    rw [show ((2 : ℚ)) = ((2 : ℕ) : ℚ) by norm_num, Nat.floor_div_nat, Nat.floor_natCast]
  have h2 : ⌊(s : ℚ) * s / (2 * c)⌋₊ = s * s / (2 * c) := by
    rw [show ((s : ℚ) * s) = (((s * s : ℕ)) : ℚ) by push_cast; ring,
        show ((2 : ℚ) * c) = (((2 * c : ℕ)) : ℚ) by push_cast; ring,
        Nat.floor_div_nat, Nat.floor_natCast]
  have hmin : ⌊min ((a : ℚ) / 2) ((s : ℚ) * s / (2 * c))⌋₊ = min (a / 2) (s * s / (2 * c)) := by
    rcases le_total ((a : ℚ) / 2) ((s : ℚ) * s / (2 * c)) with h | h
    · rw [min_eq_left h, h1, min_eq_left]
      rw [← h1, ← h2]
      exact Nat.floor_mono h
    · rw [min_eq_right h, h2, min_eq_right]
      rw [← h1, ← h2]
      exact Nat.floor_mono h
  have hid := stepsToAccelV3_eq_min a s c
  refine ⟨by rw [hid, hmin], ?_, ?_, by unfold accelStepsV4; rw [hid]⟩
  · have hle : min (a / 2) (s * s / (2 * c)) ≤ a / 2 := min_le_left _ _
    omega
  · intro h
    have h0 : ⌊min ((a : ℚ) / 2) ((s : ℚ) * s / (2 * c))⌋₊ = 0 := Nat.floor_eq_zero.mpr h
    rw [hmin] at h0
    omega

/-- C5 witness: a one-step move has a computed phase length 1/2 < 1 and the
code treats it as zero. -/
theorem c5_accel_phase_witness : stepsToAccelV3 1 1000 1000 = 0 :=
  (c5_accel_phase 1 1000 1000).2.2.1 (by norm_num)

/-- C6 (amended): in main-v3.py the per-step ramp delay equals
`1 / max(1, currentSpeed)` where `currentSpeed = accel * i / speedHz` grows
linearly in the step index `i` from zero, and the `max(1, .)` floor makes
the divisor at least 1, so no step - including step 0 - divides by zero;
but on an acceleration-limited ramp `currentSpeed` never exceeds
`speedHz / 2` within the ramp, so it does not reach the requested `speedHz`
at the end of the ramp.  In main-v4.py the ramp delay is
`1 / (speedHz * m)` with the analogous linear multiplier `m`, and the
zero divisor at step 0 is averted by the bare-except fallback to
`1 / speedHz`, not by a floor. -/
theorem c6_ramp_delay :
    (∀ (speed accel : ℚ) (absSteps sta i : Nat),
        stepDelayV3 speed accel absSteps sta i =
          1 / max 1 (currentSpeedRawV3 speed accel absSteps sta i) ∧
        0 < currentSpeedV3 speed accel absSteps sta i ∧
        (i < sta → currentSpeedRawV3 speed accel absSteps sta i = accel * i / speed)) ∧
    (∀ (absSteps speed accel : Nat), 0 < speed →
        ∀ i, i < stepsToAccelV3 absSteps speed accel →
          currentSpeedRawV3 (speed : ℚ) (accel : ℚ) absSteps
            (stepsToAccelV3 absSteps speed accel) i ≤ (speed : ℚ) / 2) ∧
    (∀ (speed accel : ℚ) (stepsToMove accelSteps : Nat), speed ≠ 0 →
        stepDelayV4 speed accel stepsToMove accelSteps 0 = 1 / speed) := by
  refine ⟨?_, ?_, ?_⟩
  · intro speed accel absSteps sta i
    refine ⟨rfl, lt_of_lt_of_le zero_lt_one (le_max_left _ _), ?_⟩
    intro h
    unfold currentSpeedRawV3
    rw [if_pos h]
  · intro a s c hs i hi
    have hbr : currentSpeedRawV3 (s : ℚ) (c : ℚ) a (stepsToAccelV3 a s c) i =
        (c : ℚ) * i / s := by
      unfold currentSpeedRawV3
      rw [if_pos hi]
    rw [hbr]
    rw [stepsToAccelV3_eq_min] at hi
    rcases Nat.eq_zero_or_pos c with hc | hc
    · exfalso
      subst hc
      simp [Nat.div_zero] at hi
    · have h2c : 0 < 2 * c := by omega
      have hup : i + 1 ≤ s * s / (2 * c) := by omega
      have hmul : (i + 1) * (2 * c) ≤ s * s := (Nat.le_div_iff_mul_le h2c).mp hup
      have hs0 : (0 : ℚ) < (s : ℚ) := by exact_mod_cast hs
      rw [div_le_div_iff₀ hs0 (by norm_num : (0 : ℚ) < 2)]
      have hcast : ((i + 1) * (2 * c) : ℚ) ≤ (s : ℚ) * s := by exact_mod_cast hmul
      have hc0 : (0 : ℚ) ≤ (c : ℚ) := Nat.cast_nonneg c
      nlinarith [hcast, hc0]
  · intro speed accel stepsToMove accelSteps hs
    have hcs : currentSpeedV4 speed accel stepsToMove accelSteps 0 = 0 ∨
        currentSpeedV4 speed accel stepsToMove accelSteps 0 = 1 := by
      unfold currentSpeedV4
      by_cases h : (0 : Nat) < accelSteps
      · left
        rw [if_pos h]
        simp
      · right
        have ha : accelSteps = 0 := by omega
        subst ha
        rw [if_neg h, if_neg (by omega)]
    rcases hcs with h | h
    · unfold stepDelayV4
      rw [h, mul_zero, if_pos rfl]
    · unfold stepDelayV4
      rw [h, mul_one, if_neg hs]

/-- C6 witness: concrete instantiations - the clamped speed is positive, a
ramp step stays below half the requested speed, and the v4 step-0 delay
falls back to `1 / speedHz`. -/
theorem c6_ramp_delay_witness :
    0 < currentSpeedV3 1000 1000 2000 500 100 ∧
    currentSpeedRawV3 ((1000 : ℕ) : ℚ) ((1000 : ℕ) : ℚ) 2000
      (stepsToAccelV3 2000 1000 1000) 100 ≤ ((1000 : ℕ) : ℚ) / 2 ∧
    stepDelayV4 1000 1000 2000 500 0 = 1 / 1000 :=
  ⟨(c6_ramp_delay.1 1000 1000 2000 500 100).2.1,
   c6_ramp_delay.2.1 2000 1000 1000 (by norm_num) 100 (by decide),
   c6_ramp_delay.2.2 1000 1000 2000 500 (by norm_num)⟩

/-- C6 counterexample: for a 2000-step move at speedHz = 1000 and accel =
1000, the ramp is 500 steps long and at its last step (i = 499) the computed
`currentSpeed` is 499, not the requested speedHz = 1000 that the claim says
the linear ramp reaches at the end of the ramp. -/
theorem c6_counterexample :
    stepsToAccelV3 2000 1000 1000 = 500 ∧
    currentSpeedRawV3 1000 1000 2000 500 499 = 499 ∧
    ¬ (currentSpeedRawV3 1000 1000 2000 500 499 = (1000 : ℚ)) := by
  have h : currentSpeedRawV3 1000 1000 2000 500 499 = 499 := by
    unfold currentSpeedRawV3
    rw [if_pos (by norm_num)]
    push_cast
    norm_num
  exact ⟨by decide, h, by rw [h]; norm_num⟩

/-! Lemmas about Python rounding. -/

theorem pyRound_of_lt (q : ℚ) (f : ℤ) (h1 : (f : ℚ) ≤ q) (h2 : q - f < 1 / 2) :
    pyRound q = f := by
  have hf : ⌊q⌋ = f := Int.floor_eq_iff.mpr ⟨h1, by linarith⟩
  unfold pyRound
  rw [hf, if_pos h2]

theorem pyRound_of_gt (q : ℚ) (f : ℤ) (h1 : 1 / 2 < q - f) (h2 : q < (f : ℚ) + 1) :
    pyRound q = f + 1 := by
  have hf : ⌊q⌋ = f := Int.floor_eq_iff.mpr ⟨by linarith, by linarith⟩
  unfold pyRound
  rw [hf, if_neg (by linarith), if_pos h1]

theorem pyRound_tie (q : ℚ) (f : ℤ) (h : q - f = 1 / 2) :
    pyRound q = if 2 ∣ f then f else f + 1 := by
  have hf : ⌊q⌋ = f := Int.floor_eq_iff.mpr ⟨by linarith, by linarith⟩
  unfold pyRound
  rw [hf, h]
  norm_num

theorem pyRound_le (q : ℚ) : (pyRound q : ℚ) ≤ q + 1 / 2 := by
  have h1 := Int.floor_le q
  have h2 := Int.lt_floor_add_one q
  unfold pyRound
  split_ifs with ha hb hc <;> push_cast <;> linarith

theorem le_pyRound (q : ℚ) : q - 1 / 2 ≤ (pyRound q : ℚ) := by
  have h1 := Int.floor_le q
  have h2 := Int.lt_floor_add_one q
  unfold pyRound
  split_ifs with ha hb hc <;> push_cast <;> linarith

theorem pyRound_eq_add_half {q : ℚ} (h : (pyRound q : ℚ) = q + 1 / 2) :
    ¬ (2 ∣ ⌊q⌋) := by
  have h1 := Int.floor_le q
  have h2 := Int.lt_floor_add_one q
  unfold pyRound at h
  split_ifs at h with ha hb hc
  · exfalso
    push_cast at h
    linarith
  · exfalso
    push_cast at h
    linarith
  · exfalso
    push_cast at h
    linarith
  · exact hc

theorem pyRound_eq_sub_half {q : ℚ} (h : (pyRound q : ℚ) = q - 1 / 2) :
    2 ∣ ⌊q⌋ := by
  have h1 := Int.floor_le q
  have h2 := Int.lt_floor_add_one q
  unfold pyRound at h
  split_ifs at h with ha hb hc
  · exfalso
    push_cast at h
    linarith
  · exfalso
    push_cast at h
    linarith
  · exact hc
  · exfalso
    push_cast at h
    linarith

theorem pyRound_mono {q r : ℚ} (h : q ≤ r) : pyRound q ≤ pyRound r := by
  by_contra hlt
  push_neg at hlt
  have hcast : (pyRound r : ℚ) + 1 ≤ (pyRound q : ℚ) := by
    exact_mod_cast Int.add_one_le_iff.mpr hlt
  have hq := pyRound_le q
  have hr := le_pyRound r
  have e1 : (pyRound q : ℚ) = q + 1 / 2 := le_antisymm hq (by linarith)
  have e2 : (pyRound r : ℚ) = r - 1 / 2 := le_antisymm (by linarith) hr
  have e3 : q = r := by linarith
  have d1 := pyRound_eq_add_half e1
  have d2 := pyRound_eq_sub_half e2
  rw [e3] at d1
  exact d1 d2

theorem pyRound_intCast (m : Int) : pyRound ((m : ℚ)) = m := by
  unfold pyRound
  rw [Int.floor_intCast]
  norm_num

/-- C4 (amended): the derived burst position list of main-v3.py is an
ordered sequence of exactly imageCount integers linearly interpolated from
startPos to endPos inclusive, rounded by Python `round` - nearest integer
with ties to even, not half away from zero; for startPos=0, endPos=1000,
imageCount=10 no tie arises and the positions are exactly
0,111,222,333,444,556,667,778,889,1000 as claimed.  main-v2.py instead
truncates toward zero, yielding 555 where the claimed list has 556. -/
theorem c4_burst_positions :
    (∀ (s e : Int) (n : Nat), (positionsV3 s e n).length = n) ∧
    (∀ (s e : Int) (n : Nat), 2 ≤ n →
        (positionsV3 s e n)[0]? = some s ∧ (positionsV3 s e n)[n - 1]? = some e) ∧
    (∀ (s e : Int) (n : Nat), s ≤ e → (positionsV3 s e n).Pairwise (· ≤ ·)) ∧
    positionsV3 0 1000 10 = [0, 111, 222, 333, 444, 556, 667, 778, 889, 1000] ∧
    (positionsV2 0 1000 10)[5]? = some 555 := by
  refine ⟨?_, ?_, ?_, ?_, ?_⟩
  · intro s e n
    simp [positionsV3]
  · intro s e n hn
    constructor
    · rw [positionsV3, List.getElem?_map, List.getElem?_range (by omega)]
      simp [pyRound_intCast]
    · rw [positionsV3, List.getElem?_map, List.getElem?_range (by omega)]
      have hne : ((n : ℚ) - 1) ≠ 0 := by
        have : (2 : ℚ) ≤ (n : ℚ) := by exact_mod_cast hn
        linarith
      have hcast : (((n - 1 : ℕ)) : ℚ) = (n : ℚ) - 1 := by
        rw [Nat.cast_sub (by omega)]
        norm_num
      have hval : (s : ℚ) + ((e : ℚ) - s) * (((n - 1 : ℕ)) : ℚ) / ((n : ℚ) - 1) = (e : ℚ) := by
        rw [hcast, mul_div_assoc, div_self hne, mul_one]
        ring
      simp [hval, pyRound_intCast]
  · intro s e n hse
    match n with
    | 0 => simp [positionsV3]
    | 1 => simp [positionsV3]
    | (m + 2) =>
      unfold positionsV3
      refine List.Pairwise.map _ ?_ (List.pairwise_lt_range (m + 2))
      intro a b hab
      apply pyRound_mono
      have hs' : (s : ℚ) ≤ (e : ℚ) := by exact_mod_cast hse
      have hab' : (a : ℚ) ≤ (b : ℚ) := by exact_mod_cast hab.le
      have hd : (0 : ℚ) < ((m + 2 : ℕ) : ℚ) - 1 := by
        push_cast
        linarith
      have h1 : ((e : ℚ) - s) * a ≤ ((e : ℚ) - s) * b :=
        mul_le_mul_of_nonneg_left hab' (by linarith)
      have h2 : ((e : ℚ) - s) * a / (((m + 2 : ℕ) : ℚ) - 1) ≤
          ((e : ℚ) - s) * b / (((m + 2 : ℕ) : ℚ) - 1) := by
        apply div_le_div_of_nonneg_right h1 hd.le
      linarith
  · unfold positionsV3
    norm_num [List.range_succ]
    refine ⟨?_, ?_, ?_, ?_, ?_, ?_, ?_, ?_, ?_, ?_⟩
    · exact pyRound_of_lt _ 0 (by norm_num) (by norm_num)
    · exact pyRound_of_lt _ 111 (by norm_num) (by norm_num)
    · exact pyRound_of_lt _ 222 (by norm_num) (by norm_num)
    · exact pyRound_of_lt _ 333 (by norm_num) (by norm_num)
    · exact pyRound_of_lt _ 444 (by norm_num) (by norm_num)
    · exact pyRound_of_gt _ 555 (by norm_num) (by norm_num)
    · exact pyRound_of_gt _ 666 (by norm_num) (by norm_num)
    · exact pyRound_of_gt _ 777 (by norm_num) (by norm_num)
    · exact pyRound_of_gt _ 888 (by norm_num) (by norm_num)
    · exact pyRound_of_lt _ 1000 (by norm_num) (by norm_num)
  · rw [positionsV2, List.getElem?_map, List.getElem?_range (by norm_num)]
    have : pyTrunc ((0 : ℚ) + ((5 : ℕ) : ℚ) * (((1000 : ℚ) - 0) / ((10 : ℚ) - 1))) = 555 := by
      unfold pyTrunc
      rw [if_neg (by norm_num)]
      exact Int.floor_eq_iff.mpr ⟨by norm_num, by norm_num⟩
    simpa using this

/-- C4 witness: the 0..1000 ten-image plan starts at 0 and is ordered. -/
theorem c4_burst_positions_witness :
    (positionsV3 0 1000 10)[0]? = some 0 ∧ (positionsV3 0 1000 10).Pairwise (· ≤ ·) :=
  ⟨(c4_burst_positions.2.1 0 1000 10 (by norm_num)).1,
   c4_burst_positions.2.2.1 0 1000 10 (by norm_num)⟩

/-- C4 counterexample: for startPos=0, endPos=1, imageCount=3 the middle
interpolated value is exactly 1/2; Python `round` (ties to even) gives 0,
while the claimed half-away-from-zero policy gives 1, so the code list
[0, 0, 1] differs from the claimed [0, 1, 1]. -/
theorem c4_counterexample : positionsV3 0 1 3 ≠ positionsSpec 0 1 3 := by
  have h1 : positionsV3 0 1 3 = [0, 0, 1] := by
    unfold positionsV3
    norm_num [List.range_succ]
    refine ⟨?_, ?_, ?_⟩
    · exact pyRound_of_lt _ 0 (by norm_num) (by norm_num)
    · rw [pyRound_tie _ 0 (by norm_num), if_pos ⟨0, by norm_num⟩]
    · exact pyRound_of_lt _ 1 (by norm_num) (by norm_num)
  have h2 : positionsSpec 0 1 3 = [0, 1, 1] := by
    unfold positionsSpec
    norm_num [List.range_succ]
    refine ⟨?_, ?_, ?_⟩
    · rw [roundHalfAway, if_neg (by norm_num)]
      exact Int.floor_eq_iff.mpr ⟨by norm_num, by norm_num⟩
    · rw [roundHalfAway, if_neg (by norm_num)]
      exact Int.floor_eq_iff.mpr ⟨by norm_num, by norm_num⟩
    · rw [roundHalfAway, if_neg (by norm_num)]
      exact Int.floor_eq_iff.mpr ⟨by norm_num, by norm_num⟩
  rw [h1, h2]
  decide

/-- C7 (amended): in main-v2.py the finally block guarantees that on every
exit of a burst run - success, emergency-stop cancellation, or an exception
during a move or capture - burst mode is off, the burst directory is
cleared, progress is exactly 0 and the state is not Bursting.  main-v3.py
resets progress to 0 on the success and cancellation paths, but its burst
thread has no try/finally, so an exception during a move or capture escapes
with the progress left at its last nonzero value. -/
theorem c7_burst_cleanup :
    (∀ s : BurstStateV2,
        (performBurstFinallyV2 s).burstMode = false ∧
        (performBurstFinallyV2 s).burstDir = none ∧
        (performBurstFinallyV2 s).burstProgress = 0 ∧
        (performBurstFinallyV2 s).state ≠ MotorState.burst) ∧
    (∀ (n : Nat) (stop failAt : Nat → Bool) (s : BurstStateV3),
        (burstThreadV3 n stop failAt s).2 = false →
        (burstThreadV3 n stop failAt s).1.burstProgress = 0) := by
  constructor
  · intro s
    refine ⟨rfl, rfl, rfl, ?_⟩
    show (if s.state = MotorState.emergencyStop then s.state else MotorState.idle) ≠
      MotorState.burst
    split_ifs with h
    · rw [h]
      intro hc
      cases hc
    · intro hc
      cases hc
  · intro n stop failAt s h
    unfold burstThreadV3 at h ⊢
    by_cases hb : (burstLoopV3 n stop failAt n 0 s).2 = true
    · rw [if_pos hb] at h
      exact absurd h (by simp [hb])
    · rw [if_neg hb]

/-- C7 witness: a clean 10-image run ends with progress 0. -/
theorem c7_burst_cleanup_witness :
    (burstThreadV3 10 (fun _ => false) (fun _ => false) ⟨0, false⟩).1.burstProgress = 0 :=
  c7_burst_cleanup.2 10 (fun _ => false) (fun _ => false) ⟨0, false⟩ (by decide)

/-- C7 counterexample: in main-v3.py an exception raised at the first
capture of a 10-image run leaves the burst progress at 10, not reset to 0,
because no finally block runs on the exception exit path. -/
theorem c7_counterexample :
    ¬ ((burstThreadV3 10 (fun _ => false) (fun i => decide (i = 0))
        ⟨0, false⟩).1.burstProgress = 0) := by
  decide

/-- Helper invariant for main-v2.py burst progress: the total is preserved,
the count stays within it, and the stored progress is the one the last save
wrote (or the initial 0). -/
def goodOutputV2 (total : Nat) (s : OutputStateV2) : Prop :=
  s.burstTotal = total ∧ s.burstCount ≤ total ∧
    (s.burstProgress = (s.burstCount : ℚ) / (total : ℚ) * 100 ∨
      (s.burstCount = 0 ∧ s.burstProgress = 0))

theorem goodOutputV2_step {total : Nat} {s : OutputStateV2} (h : goodOutputV2 total s) :
    goodOutputV2 total (saveBurstImageV2 s) ∧
      s.burstProgress ≤ (saveBurstImageV2 s).burstProgress := by
  obtain ⟨ht, hc, hp⟩ := h
  unfold saveBurstImageV2
  by_cases hlt : s.burstCount < s.burstTotal
  · rw [if_pos hlt]
    have htot : 0 < total := by omega
    have htq : (0 : ℚ) < (total : ℚ) := by exact_mod_cast htot
    constructor
    · refine ⟨ht, by dsimp only; omega, Or.inl ?_⟩
      rw [ht]
      push_cast
      ring
    · rcases hp with hp | ⟨_, hp0⟩
      · rw [hp, ht]
        have hmul : (s.burstCount : ℚ) / (total : ℚ) ≤ ((s.burstCount : ℚ) + 1) / (total : ℚ) :=
          div_le_div_of_nonneg_right (by linarith) htq.le
        have := mul_le_mul_of_nonneg_right hmul (by norm_num : (0 : ℚ) ≤ 100)
        simpa using this
      · rw [hp0]
        positivity
  · rw [if_neg hlt]
    exact ⟨⟨ht, hc, hp⟩, le_refl _⟩

theorem goodOutputV2_iterate (total : Nat) :
    ∀ k, goodOutputV2 total (saveBurstImageV2^[k] ⟨0, total, 0⟩) := by
  intro k
  induction k with
  | zero => exact ⟨rfl, Nat.zero_le total, Or.inr ⟨rfl, rfl⟩⟩
  | succ k ih =>
    rw [Function.iterate_succ_apply']
    exact (goodOutputV2_step ih).1

theorem saveBurstImageV2_progress_step (total k : Nat) :
    (saveBurstImageV2^[k] ⟨0, total, 0⟩).burstProgress ≤
      (saveBurstImageV2^[k + 1] ⟨0, total, 0⟩).burstProgress := by
  rw [Function.iterate_succ_apply']
  exact (goodOutputV2_step (goodOutputV2_iterate total k)).2

/-- C8: in main-v2.py, starting a burst with `burst_count = 0`, after any
number of frame saves `capturedCount <= totalCount` holds and the reported
progress is monotonically non-decreasing; in main-v3.py the stored progress
`int((i+1)/n*100)` is non-decreasing in the image index and never exceeds
100 while the captured index stays within the total. -/
theorem c8_progress_invariants :
    (∀ (total k : Nat), (saveBurstImageV2^[k] ⟨0, total, 0⟩).burstCount ≤ total) ∧
    (∀ (total j k : Nat), j ≤ k →
        (saveBurstImageV2^[j] ⟨0, total, 0⟩).burstProgress ≤
          (saveBurstImageV2^[k] ⟨0, total, 0⟩).burstProgress) ∧
    (∀ (n i j : Nat), i ≤ j → burstProgressV3 n i ≤ burstProgressV3 n j) ∧
    (∀ (n i : Nat), i + 1 ≤ n → burstProgressV3 n i ≤ 100) := by
  refine ⟨?_, ?_, ?_, ?_⟩
  · intro total k
    exact (goodOutputV2_iterate total k).2.1
  · intro total j k h
    exact monotone_nat_of_le_succ (saveBurstImageV2_progress_step total) h
  · intro n i j h
    unfold burstProgressV3
    exact Nat.div_le_div_right (by omega)
  · intro n i h
    unfold burstProgressV3
    have h0 : 0 < n := by omega
    calc (i + 1) * 100 / n ≤ n * 100 / n := Nat.div_le_div_right (by omega)
    _ = 100 := Nat.mul_div_cancel_left _ h0

/-- C8 witness: concrete monotonicity instances for a 10-image run. -/
theorem c8_progress_invariants_witness :
    (saveBurstImageV2^[2] ⟨0, 10, 0⟩).burstProgress ≤
      (saveBurstImageV2^[5] ⟨0, 10, 0⟩).burstProgress ∧
    burstProgressV3 10 3 ≤ 100 :=
  ⟨c8_progress_invariants.2.1 10 2 5 (by norm_num),
   c8_progress_invariants.2.2.2 10 3 (by norm_num)⟩

/-! Lemmas for the burst directory search. -/

theorem mem_le_listMax {x : Nat} : ∀ {l : List Nat}, x ∈ l → x ≤ listMax l := by
  intro l
  induction l with
  | nil => intro h; cases h
  | cons a t ih =>
    intro h
    rcases List.mem_cons.mp h with rfl | h2
    · exact le_max_left _ _
    · exact le_trans (ih h2) (le_max_right _ _)

theorem findBurstNum_spec (existing : List Nat) :
    ∀ (fuel n : Nat),
      (∃ m, n ≤ m ∧ m < n + fuel ∧ m ∉ existing) →
      findBurstNum existing fuel n ∉ existing ∧
      n ≤ findBurstNum existing fuel n ∧
      ∀ k, n ≤ k → k < findBurstNum existing fuel n → k ∈ existing := by
  intro fuel
  induction fuel with
  | zero =>
    intro n h
    obtain ⟨m, h1, h2, _⟩ := h
    omega
  | succ fuel ih =>
    intro n h
    obtain ⟨m, h1, h2, h3⟩ := h
    by_cases hn : n ∈ existing
    · have hm : n + 1 ≤ m := by
        rcases Nat.eq_or_lt_of_le h1 with rfl | hlt
        · exact absurd hn h3
        · omega
      obtain ⟨r1, r2, r3⟩ := ih (n + 1) ⟨m, hm, by omega, h3⟩
      simp only [findBurstNum, if_pos hn]
      refine ⟨r1, by omega, ?_⟩
      intro k hk1 hk2
      rcases Nat.eq_or_lt_of_le hk1 with rfl | hlt
      · exact hn
      · exact r3 k (by omega) hk2
    · simp only [findBurstNum, if_neg hn]
      exact ⟨hn, le_refl n, fun k hk1 hk2 => by omega⟩

/-- C9: every revision picks the lowest-numbered unused burst directory:
main-v3.py / main-v4.py search from 1 every run, and main-v2.py searches
from its persistent counter, which - as long as every index below the
counter is an already-created directory, an invariant of the program's own
runs - yields the same lowest unused index.  Consecutively from a clean
state the chosen directories are burst_001 then burst_002, so the second
run writes into a different directory and overwrites nothing; a collision
is resolved by deterministically incrementing the candidate. -/
theorem c9_burst_dirs :
    (∀ existing : List Nat,
        burstNumV3 existing ∉ existing ∧ 1 ≤ burstNumV3 existing ∧
        ∀ k, 1 ≤ k → k < burstNumV3 existing → k ∈ existing) ∧
    (∀ (existing : List Nat) (counter : Nat),
        1 ≤ counter → (∀ k, 1 ≤ k → k < counter → k ∈ existing) →
        burstNumV2 existing counter ∉ existing ∧
        ∀ k, 1 ≤ k → k < burstNumV2 existing counter → k ∈ existing) ∧
    burstNumV3 [] = 1 ∧ burstNumV3 [1] = 2 ∧
    burstNumV2 [] 1 = 1 ∧ burstNumV2 [1] 1 = 2 := by
  refine ⟨?_, ?_, by decide, by decide, by decide, by decide⟩
  · intro existing
    have h := findBurstNum_spec existing (listMax existing + 1) 1
      ⟨listMax existing + 1, by omega, by omega,
        fun hmem => by have := mem_le_listMax hmem; omega⟩
    exact ⟨h.1, h.2.1, h.2.2⟩
  · intro existing counter hc hinv
    have h := findBurstNum_spec existing (listMax existing + counter + 1) counter
      ⟨max (listMax existing + 1) counter, by omega, by omega,
        fun hmem => by have := mem_le_listMax hmem; omega⟩
    refine ⟨h.1, ?_⟩
    intro k hk1 hk2
    by_cases hkc : k < counter
    · exact hinv k hk1 hkc
    · exact h.2.2 k (by omega) hk2

/-- C9 witness: main-v2.py with persistent counter 2 and directories 1, 2
already created picks an unused name. -/
theorem c9_burst_dirs_witness : burstNumV2 [1, 2] 2 ∉ [1, 2] :=
  (c9_burst_dirs.2.1 [1, 2] 2 (by norm_num) (fun k h1 h2 => by
    have hk : k = 1 := by omega
    subst hk
    simp)).1

/-- C10: in main-v4.py a relative move with an unarmed emergency stop sets
the new absolute target to `target_position` plus or minus `steps` - computed from the
pending target, not the current position - so whenever the two differ, the
resulting target is not `current_position` plus or minus `steps`. -/
theorem c10_relative_move_from_target :
    ∀ (s : StepperMotorV4) (steps : Int),
      s.emergencyStop = false →
      (moveV4 s steps true).targetPosition = s.targetPosition + steps ∧
      (moveV4 s steps false).targetPosition = s.targetPosition - steps ∧
      (s.currentPosition ≠ s.targetPosition →
        (moveV4 s steps true).targetPosition ≠ s.currentPosition + steps) := by
  intro s steps h
  refine ⟨?_, ?_, ?_⟩
  · simp [moveV4, moveToV4, h]
  · simp [moveV4, moveToV4, h]
  · intro hne
    simp only [moveV4, moveToV4, h, Bool.false_eq_true, if_true, if_false]
    omega

/-- C10 witness: with current position 0 and stale target 7, a +5 relative
move targets 12, not 5. -/
theorem c10_relative_move_from_target_witness :
    (moveV4 ⟨0, 7, false, false⟩ 5 true).targetPosition = 7 + 5 ∧
    (moveV4 ⟨0, 7, false, false⟩ 5 true).targetPosition ≠ 0 + 5 :=
  ⟨(c10_relative_move_from_target ⟨0, 7, false, false⟩ 5 rfl).1,
   (c10_relative_move_from_target ⟨0, 7, false, false⟩ 5 rfl).2.2 (by decide)⟩

end MotorizedMicroscope
